import Mathlib

/-!
Verification development for the motion-control core of the VRC-3142A
CHANGE-UP differential-drive robot (src/include/ChassisSystems/chassisGlobals.h).

The header under src declares the chassis class, its builder (whose method
bodies appear inline in the header), and the tracking structure.  Method
bodies that live in other translation units of the repository (the posPID
implementation, the trapezoidal motion profile, the constructor of
FourMotorDrive, the tracking accessors and the motion primitives) are not
under src; those are modelled from the specification, as marked in the doc
comment of each such definition.  Doubles are modelled as rationals where
the code is pure arithmetic, and as real numbers for the motion profile,
where a square root is required.
-/

/-- Gear cartridge type of a VEX motor (36:1, 18:1, 6:1), from the header
comment at chassisGlobals.h:49. -/
inductive gearSetting
  | ratio36_1
  | ratio18_1
  | ratio6_1
deriving DecidableEq, Repr

/-- Modelled from the spec: the PDcontroller gain record (declared in the
missing posPID.h) is a triple of proportional, integral and derivative
gains, one per controller instance. -/
structure PDcontroller where
  kP : ℚ
  kI : ℚ
  kD : ℚ
deriving DecidableEq, Repr

/-- Modelled from the spec: Dimensions (declared in the missing
chassisConstraints.h) holds the track width and the wheel radius, both
required positive. -/
structure Dimensions where
  trackWidth : ℚ
  wheelRadius : ℚ
deriving DecidableEq, Repr

/-- Modelled from the spec: Limits (declared in the missing
chassisConstraints.h) holds the maximum velocity and maximum acceleration
for motion profiling, both required positive. -/
structure Limits where
  maxVelocity : ℚ
  maxAcceleration : ℚ
deriving DecidableEq, Repr

/-- Configuration error surfaced when chassis construction is rejected. -/
inductive ConfigError
  | invalidConfiguration
deriving DecidableEq, Repr

/-- Argument tuple handed to the FourMotorDrive constructor, in the order of
the declaration at chassisGlobals.h:56-60: left motor group, right motor
group, gear cartridge, external gear ratio, chassis dimensions, chassis
limits, controller gain list. -/
structure CtorArgs where
  leftGroup : Int × Int
  rightGroup : Int × Int
  gearbox : gearSetting
  gearRatio : ℚ
  dims : Dimensions
  limits : Limits
  gains : List PDcontroller
deriving DecidableEq, Repr

/-- The chassis object, mirroring the public members declared at
chassisGlobals.h:18-43.  The three posPID members are initialised from the
gain list by the constructor, whose body is not under src; the gain list is
kept here as the construction-time data. -/
structure FourMotorDrive where
  m_chassisDimensions : Dimensions
  m_chassisLimits : Limits
  gearRatio : ℚ
  setting : gearSetting
  leftFrontPort : Int
  leftBackPort : Int
  rightFrontPort : Int
  rightBackPort : Int
  gains : List PDcontroller
deriving DecidableEq, Repr

/-- Modelled from the spec: the body of the FourMotorDrive constructor
(declared at chassisGlobals.h:56-60) is not under src.  Per the error
taxonomy of the spec, configuration errors — invalid dimensions or limits
(value of at most 0) — are detected at construction and construction is
rejected, surfaced immediately to the caller. -/
def FourMotorDrive.construct (a : CtorArgs) : Except ConfigError FourMotorDrive :=
  if a.dims.trackWidth ≤ 0 ∨ a.dims.wheelRadius ≤ 0 ∨
      a.limits.maxVelocity ≤ 0 ∨ a.limits.maxAcceleration ≤ 0 then
    Except.error ConfigError.invalidConfiguration
  else
    Except.ok
      { m_chassisDimensions := a.dims
        m_chassisLimits := a.limits
        gearRatio := a.gearRatio
        setting := a.gearbox
        leftFrontPort := a.leftGroup.1
        leftBackPort := a.leftGroup.2
        rightFrontPort := a.rightGroup.1
        rightBackPort := a.rightGroup.2
        gains := a.gains }

/-- Builder state, mirroring the private members of
FourMotorDrive::FourMotorDriveBuilder at chassisGlobals.h:179-185. -/
structure FourMotorDriveBuilder where
  m_leftGroup : Int × Int
  m_rightGroup : Int × Int
  gearbox : gearSetting
  gearRatio : ℚ
  m_chassisDimensions : Dimensions
  m_chassisLimits : Limits
  m_PDGains : List PDcontroller
deriving DecidableEq, Repr

/-- Embeds withMotors (chassisGlobals.h:189-193): assigns m_leftGroup and
m_rightGroup and returns the builder.  The fluent mutating interface is
modelled by returning the updated state. -/
def FourMotorDriveBuilder.withMotors (b : FourMotorDriveBuilder)
    (leftGroup rightGroup : Int × Int) : FourMotorDriveBuilder :=
  { b with m_leftGroup := leftGroup, m_rightGroup := rightGroup }

/-- Embeds withGearSetting (chassisGlobals.h:194-197): assigns gearbox. -/
def FourMotorDriveBuilder.withGearSetting (b : FourMotorDriveBuilder)
    (gears : gearSetting) : FourMotorDriveBuilder :=
  { b with gearbox := gears }

/-- Embeds withGearRatio (chassisGlobals.h:198-201): assigns gearRatio. -/
def FourMotorDriveBuilder.withGearRatio (b : FourMotorDriveBuilder)
    (ratio : ℚ) : FourMotorDriveBuilder :=
  { b with gearRatio := ratio }

/-- Embeds withDimensions (chassisGlobals.h:202-205): assigns
m_chassisDimensions. -/
def FourMotorDriveBuilder.withDimensions (b : FourMotorDriveBuilder)
    (chassisDimensions : Dimensions) : FourMotorDriveBuilder :=
  { b with m_chassisDimensions := chassisDimensions }

/-- Embeds withLimits (chassisGlobals.h:206-209): assigns m_chassisLimits. -/
def FourMotorDriveBuilder.withLimits (b : FourMotorDriveBuilder)
    (chassisLimits : Limits) : FourMotorDriveBuilder :=
  { b with m_chassisLimits := chassisLimits }

/-- Embeds withPDGains (chassisGlobals.h:210-213).  The body of the source
is the statement PDGains = PDGains; — it assigns the parameter to itself.
The member m_PDGains is never written, so the builder state is returned
unchanged.  The self-assignment is kept as a local let binding. -/
def FourMotorDriveBuilder.withPDGains (b : FourMotorDriveBuilder)
    (PDGains : List PDcontroller) : FourMotorDriveBuilder :=
  let PDGains := PDGains
  b

/-- The argument tuple that buildChassis (chassisGlobals.h:215-218) passes
to the FourMotorDrive constructor: its seven stored members, in declaration
order. -/
def FourMotorDriveBuilder.buildChassisArgs (b : FourMotorDriveBuilder) : CtorArgs :=
  { leftGroup := b.m_leftGroup
    rightGroup := b.m_rightGroup
    gearbox := b.gearbox
    gearRatio := b.gearRatio
    dims := b.m_chassisDimensions
    limits := b.m_chassisLimits
    gains := b.m_PDGains }

/-- Embeds buildChassis (chassisGlobals.h:215-218): a const member that
forwards the stored members to the FourMotorDrive constructor.  The const
qualifier is modelled by also returning the (unchanged) builder state. -/
def FourMotorDriveBuilder.buildChassis (b : FourMotorDriveBuilder) :
    Except ConfigError FourMotorDrive × FourMotorDriveBuilder :=
  (FourMotorDrive.construct b.buildChassisArgs, b)

/-- Clamps a value to the closed interval from lo to hi. -/
def clamp (x lo hi : ℚ) : ℚ :=
  max lo (min hi x)

/-- Modelled from the spec: the controller state inside posPID (whose
implementation posPID.h is not under src) — previous error, accumulated
integral term, last output — mutated on every calculatePower call. -/
structure ControllerState where
  prevError : ℚ
  integral : ℚ
  lastOutput : ℚ
deriving DecidableEq, Repr

/-- Modelled from the spec: a posPID controller instance (posPID.h is not
under src) — its gain triple, the actuator output bound used for clamping,
and the mutable controller state. -/
structure posPID where
  gains : PDcontroller
  maxOutput : ℚ
  state : ControllerState
deriving DecidableEq, Repr

/-- A freshly constructed posPID controller: zero accumulated state. -/
def posPID.make (gains : PDcontroller) (maxOutput : ℚ) : posPID :=
  { gains := gains, maxOutput := maxOutput
    state := { prevError := 0, integral := 0, lastOutput := 0 } }

/-- Modelled from the spec: reset() zeroes accumulated state; it must be
called at the start of every new independent motion primitive. -/
def posPID.reset (c : posPID) : posPID :=
  { c with state := { prevError := 0, integral := 0, lastOutput := 0 } }

/-- Modelled from the spec: the control output of calculatePower before
clamping.  error = target − current; for a positive tick-duration the
output is kP·error + kI·integral + kD·derivative with the integral
accumulating error·dt and the derivative (error − previousError)/dt; for a
zero or negative tick-duration the integral and derivative terms are
skipped for the sample — only the proportional term remains and no
division by dt is performed. -/
def posPID.rawPower (c : posPID) (currentValue targetValue dt : ℚ) : ℚ :=
  let error := targetValue - currentValue
  if dt ≤ 0 then
    c.gains.kP * error
  else
    c.gains.kP * error + c.gains.kI * (c.state.integral + error * dt) +
      c.gains.kD * ((error - c.state.prevError) / dt)

/-- Modelled from the spec: calculatePower(currentValue, targetValue),
called once per control tick with the tick-duration dt.  The output is the
raw PID output clamped to the actuator range.  A zero or negative dt is a
transient sampling error: the sample is treated as a no-op tick — the
controller state is left unchanged and no error is propagated.  Otherwise
previousError is updated after use and the integral accumulates, subject to
anti-windup: the integral is frozen at its old value whenever the raw
output exceeds the actuator bound. -/
def posPID.calculatePower (c : posPID) (currentValue targetValue dt : ℚ) :
    ℚ × posPID :=
  let error := targetValue - currentValue
  let raw := c.rawPower currentValue targetValue dt
  let output := clamp raw (-c.maxOutput) c.maxOutput
  if dt ≤ 0 then
    (output, c)
  else
    let newIntegral :=
      if c.maxOutput < |raw| then c.state.integral
      else c.state.integral + error * dt
    (output,
      { c with
          state :=
            { prevError := error, integral := newIntegral
              lastOutput := output } })

/-- Modelled from the spec: the canonical heading wrap.  The spec leaves
the wrap point as a design choice applied consistently; this embedding
chooses the range from 0 inclusive to 360 exclusive. -/
def normalizeHeading (theta : ℚ) : ℚ :=
  theta - 360 * ⌊theta / 360⌋

/-- Modelled from the spec: getInertialHeading (declared at
chassisGlobals.h:289, body not under src) returns the fixed inertial value,
normalised to the canonical range. -/
def Tracking.getInertialHeading (rawHeading : ℚ) : ℚ :=
  normalizeHeading rawHeading

/-- Modelled from the spec: the signed shortest-path angular difference
between two headings, computed after normalising their raw difference to
the canonical range. -/
def shortestError (a b : ℚ) : ℚ :=
  let d := normalizeHeading (a - b)
  if d > 180 then d - 360 else d

/-- Outcome value a motion primitive reports to its caller. -/
inductive Outcome
  | converged
  | didNotConverge
deriving DecidableEq, Repr

/-- Modelled from the spec: the blocking-until-converged loop shared by the
motion primitives.  Each tick tests the convergence predicate; on success
the loop exits with the converged outcome, otherwise the closed-loop plant
advances one step.  The timeout is the maximum number of ticks; when it is
exhausted without convergence the loop terminates and reports a non-fatal
did-not-converge outcome together with the state reached. -/
def runPrimitive {σ : Type} (step : σ → σ) (converged : σ → Bool) :
    Nat → σ → σ × Outcome
  | 0, s => (s, Outcome.didNotConverge)
  | n + 1, s =>
    if converged s then (s, Outcome.converged)
    else runPrimitive step converged n (step s)

/-- Modelled from the spec: turnToDegreeGyro (declared at
chassisGlobals.h:80, body not under src) is a timed convergence loop.  The
closed-loop dynamics for the commanded angle (sensors, turnPID, actuators)
enter as the step function, the tolerance-and-settle test as the
predicate. -/
def FourMotorDrive.turnToDegreeGyro {σ : Type} (angle : ℚ) (step : σ → σ)
    (converged : σ → Bool) (timeout : Nat) (s : σ) : σ × Outcome :=
  runPrimitive step converged timeout s

/-- Modelled from the spec: driveStraightFeedforward (declared at
chassisGlobals.h:107, body not under src) is a timed convergence loop over
the feedforward-plus-PID closed loop for the commanded distance. -/
def FourMotorDrive.driveStraightFeedforward {σ : Type} (distance : ℚ)
    (backwards : Bool) (step : σ → σ) (converged : σ → Bool) (timeout : Nat)
    (s : σ) : σ × Outcome :=
  runPrimitive step converged timeout s

/-- Modelled from the spec: driveArcFeedforward (declared at
chassisGlobals.h:121, body not under src) is a timed convergence loop over
the differential-arc closed loop for the commanded radius and exit
angle. -/
def FourMotorDrive.driveArcFeedforward {σ : Type} (radius exitAngle : ℚ)
    (step : σ → σ) (converged : σ → Bool) (timeout : Nat) (s : σ) :
    σ × Outcome :=
  runPrimitive step converged timeout s

/-- Modelled from the spec: moveToPoint (declared at chassisGlobals.h:119,
body not under src) is a timed convergence loop over the
turn-then-drive-to-point closed loop for the commanded target point. -/
def FourMotorDrive.moveToPoint {σ : Type} (x y : ℚ) (backwards : Bool)
    (step : σ → σ) (converged : σ → Bool) (timeout : Nat) (s : σ) :
    σ × Outcome :=
  runPrimitive step converged timeout s

/-- Modelled from the spec: the trapezoidal motion profile implementation
(motionprofile.h and .cpp, referenced at chassisGlobals.h:100-102) is not
under src.  Time needed to reach maxVelocity at maxAcceleration. -/
noncomputable def accelTime0 (maxVelocity maxAcceleration : ℝ) : ℝ :=
  maxVelocity / maxAcceleration

/-- Modelled from the spec: distance covered while accelerating from rest
to maxVelocity at maxAcceleration. -/
noncomputable def accelDist0 (maxVelocity maxAcceleration : ℝ) : ℝ :=
  maxAcceleration * accelTime0 maxVelocity maxAcceleration ^ 2 / 2

/-- Modelled from the spec: the peak velocity of the profile.  When twice
the acceleration distance reaches the total distance (triangle profile) the
peak is reduced to the square root of maxAcceleration·totalDistance;
otherwise the profile cruises at maxVelocity. -/
noncomputable def peakVelocity (totalDistance maxVelocity maxAcceleration : ℝ) : ℝ :=
  if 2 * accelDist0 maxVelocity maxAcceleration ≥ totalDistance then
    Real.sqrt (maxAcceleration * totalDistance)
  else
    maxVelocity

/-- Modelled from the spec: the duration of the acceleration ramp, the peak
velocity divided by maxAcceleration. -/
noncomputable def accelTime (totalDistance maxVelocity maxAcceleration : ℝ) : ℝ :=
  peakVelocity totalDistance maxVelocity maxAcceleration / maxAcceleration

/-- Modelled from the spec: the cruise duration — zero in the triangle
case, otherwise the cruise distance divided by maxVelocity. -/
noncomputable def cruiseTime (totalDistance maxVelocity maxAcceleration : ℝ) : ℝ :=
  if 2 * accelDist0 maxVelocity maxAcceleration ≥ totalDistance then 0
  else
    (totalDistance - 2 * accelDist0 maxVelocity maxAcceleration) / maxVelocity

/-- Modelled from the spec: total duration of the profile — twice the ramp
duration plus the cruise duration. -/
noncomputable def totalTime (totalDistance maxVelocity maxAcceleration : ℝ) : ℝ :=
  2 * accelTime totalDistance maxVelocity maxAcceleration +
    cruiseTime totalDistance maxVelocity maxAcceleration

/-- Modelled from the spec: velocityAt (calculateMpVelocity in the missing
motionprofile.cpp) — ramps linearly from 0 to the peak during the
acceleration window, holds the peak during cruise, ramps symmetrically back
to 0 during the final window, and returns 0 before 0 or beyond the total
duration. -/
noncomputable def velocityAt (totalDistance maxVelocity maxAcceleration t : ℝ) : ℝ :=
  if t < 0 ∨ t > totalTime totalDistance maxVelocity maxAcceleration then 0
  else if t ≤ accelTime totalDistance maxVelocity maxAcceleration then
    maxAcceleration * t
  else if t ≤ accelTime totalDistance maxVelocity maxAcceleration +
      cruiseTime totalDistance maxVelocity maxAcceleration then
    peakVelocity totalDistance maxVelocity maxAcceleration
  else
    peakVelocity totalDistance maxVelocity maxAcceleration -
      maxAcceleration * (t - (accelTime totalDistance maxVelocity maxAcceleration +
        cruiseTime totalDistance maxVelocity maxAcceleration))

/-- The normalised heading always lies in the canonical range from 0
inclusive to 360 exclusive. -/
lemma normalizeHeading_mem_range (theta : ℚ) :
    0 ≤ normalizeHeading theta ∧ normalizeHeading theta < 360 := by
  unfold normalizeHeading
  constructor
  · have h : ((⌊theta / 360⌋ : ℚ)) ≤ theta / 360 := Int.floor_le (theta / 360)
    have h2 : (360 : ℚ) * ((⌊theta / 360⌋ : ℚ)) ≤ 360 * (theta / 360) :=
      mul_le_mul_of_nonneg_left h (by norm_num)
    have h3 : (360 : ℚ) * (theta / 360) = theta := by ring
    linarith
  · have h : theta / 360 < (⌊theta / 360⌋ : ℚ) + 1 := Int.lt_floor_add_one (theta / 360)
    have h2 : (360 : ℚ) * (theta / 360) < 360 * ((⌊theta / 360⌋ : ℚ) + 1) :=
      mul_lt_mul_of_pos_left h (by norm_num)
    have h3 : (360 : ℚ) * (theta / 360) = theta := by ring
    linarith

/-- C7: every raw heading is normalised by the tracker into the canonical
wrap range chosen for the embedding, the range from 0 inclusive to 360
exclusive, and the shortest-path angular error between any two headings —
computed with the same normalisation — never exceeds 180 degrees in
magnitude. -/
theorem heading_normalized_and_shortest_error_bounded :
    (∀ raw : ℚ, 0 ≤ Tracking.getInertialHeading raw ∧
      Tracking.getInertialHeading raw < 360) ∧
    (∀ a b : ℚ, |shortestError a b| ≤ 180) := by
  constructor
  · intro raw
    exact normalizeHeading_mem_range raw
  · intro a b
    obtain ⟨h0, h360⟩ := normalizeHeading_mem_range (a - b)
    unfold shortestError
    by_cases h : normalizeHeading (a - b) > 180
    · rw [if_pos h]
      rw [abs_le]
      constructor <;> linarith
    · rw [if_neg h]
      push_neg at h
      rw [abs_le]
      constructor <;> linarith

/-- C8: withPDGains assigns its parameter to itself, so it leaves every
builder field unchanged — in particular m_PDGains — and the gains that a
subsequent buildChassis passes to the constructor are the stored
m_PDGains, independent of the argument. -/
theorem withPDGains_is_noop :
    ∀ (b : FourMotorDriveBuilder) (g : List PDcontroller),
      (b.withPDGains g).m_leftGroup = b.m_leftGroup ∧
      (b.withPDGains g).m_rightGroup = b.m_rightGroup ∧
      (b.withPDGains g).gearbox = b.gearbox ∧
      (b.withPDGains g).gearRatio = b.gearRatio ∧
      (b.withPDGains g).m_chassisDimensions = b.m_chassisDimensions ∧
      (b.withPDGains g).m_chassisLimits = b.m_chassisLimits ∧
      (b.withPDGains g).m_PDGains = b.m_PDGains ∧
      (b.withPDGains g).buildChassis = b.buildChassis ∧
      ((b.withPDGains g).buildChassisArgs).gains = b.m_PDGains :=
  fun _ _ => ⟨rfl, rfl, rfl, rfl, rfl, rfl, rfl, rfl, rfl⟩

/-- C9: each of withMotors, withGearSetting, withGearRatio, withDimensions
and withLimits sets exactly its own field or fields to the argument and
leaves every other builder field unchanged; the fluent return of the same
object is modelled by the returned state. -/
theorem builder_setters_frame :
    (∀ (b : FourMotorDriveBuilder) (lg rg : Int × Int),
      (b.withMotors lg rg).m_leftGroup = lg ∧
      (b.withMotors lg rg).m_rightGroup = rg ∧
      (b.withMotors lg rg).gearbox = b.gearbox ∧
      (b.withMotors lg rg).gearRatio = b.gearRatio ∧
      (b.withMotors lg rg).m_chassisDimensions = b.m_chassisDimensions ∧
      (b.withMotors lg rg).m_chassisLimits = b.m_chassisLimits ∧
      (b.withMotors lg rg).m_PDGains = b.m_PDGains) ∧
    (∀ (b : FourMotorDriveBuilder) (g : gearSetting),
      (b.withGearSetting g).gearbox = g ∧
      (b.withGearSetting g).m_leftGroup = b.m_leftGroup ∧
      (b.withGearSetting g).m_rightGroup = b.m_rightGroup ∧
      (b.withGearSetting g).gearRatio = b.gearRatio ∧
      (b.withGearSetting g).m_chassisDimensions = b.m_chassisDimensions ∧
      (b.withGearSetting g).m_chassisLimits = b.m_chassisLimits ∧
      (b.withGearSetting g).m_PDGains = b.m_PDGains) ∧
    (∀ (b : FourMotorDriveBuilder) (r : ℚ),
      (b.withGearRatio r).gearRatio = r ∧
      (b.withGearRatio r).m_leftGroup = b.m_leftGroup ∧
      (b.withGearRatio r).m_rightGroup = b.m_rightGroup ∧
      (b.withGearRatio r).gearbox = b.gearbox ∧
      (b.withGearRatio r).m_chassisDimensions = b.m_chassisDimensions ∧
      (b.withGearRatio r).m_chassisLimits = b.m_chassisLimits ∧
      (b.withGearRatio r).m_PDGains = b.m_PDGains) ∧
    (∀ (b : FourMotorDriveBuilder) (d : Dimensions),
      (b.withDimensions d).m_chassisDimensions = d ∧
      (b.withDimensions d).m_leftGroup = b.m_leftGroup ∧
      (b.withDimensions d).m_rightGroup = b.m_rightGroup ∧
      (b.withDimensions d).gearbox = b.gearbox ∧
      (b.withDimensions d).gearRatio = b.gearRatio ∧
      (b.withDimensions d).m_chassisLimits = b.m_chassisLimits ∧
      (b.withDimensions d).m_PDGains = b.m_PDGains) ∧
    (∀ (b : FourMotorDriveBuilder) (l : Limits),
      (b.withLimits l).m_chassisLimits = l ∧
      (b.withLimits l).m_leftGroup = b.m_leftGroup ∧
      (b.withLimits l).m_rightGroup = b.m_rightGroup ∧
      (b.withLimits l).gearbox = b.gearbox ∧
      (b.withLimits l).gearRatio = b.gearRatio ∧
      (b.withLimits l).m_chassisDimensions = b.m_chassisDimensions ∧
      (b.withLimits l).m_PDGains = b.m_PDGains) := by
  refine ⟨?_, ?_, ?_, ?_, ?_⟩ <;> intros <;>
    exact ⟨rfl, rfl, rfl, rfl, rfl, rfl, rfl⟩

/-- C10: buildChassis is read-only — it returns the builder state unchanged
— and deterministic: equal builder states pass identical argument tuples to
the FourMotorDrive constructor and produce identical results. -/
theorem buildChassis_readonly_deterministic :
    (∀ b : FourMotorDriveBuilder, (b.buildChassis).2 = b) ∧
    (∀ b1 b2 : FourMotorDriveBuilder, b1 = b2 →
      b1.buildChassisArgs = b2.buildChassisArgs ∧
      b1.buildChassis = b2.buildChassis) := by
  refine ⟨fun b => rfl, fun b1 b2 h => ?_⟩
  subst h
  exact ⟨rfl, rfl⟩

/-- Witness for C10 at a concrete builder state. -/
theorem buildChassis_readonly_deterministic_witness :
    ((⟨(1, 2), (3, 4), gearSetting.ratio18_1, 1, ⟨1, 1⟩, ⟨1, 1⟩, []⟩ :
        FourMotorDriveBuilder).buildChassis).2 =
      (⟨(1, 2), (3, 4), gearSetting.ratio18_1, 1, ⟨1, 1⟩, ⟨1, 1⟩, []⟩ :
        FourMotorDriveBuilder) ∧
    ((⟨(1, 2), (3, 4), gearSetting.ratio18_1, 1, ⟨1, 1⟩, ⟨1, 1⟩, []⟩ :
        FourMotorDriveBuilder).buildChassisArgs =
      (⟨(1, 2), (3, 4), gearSetting.ratio18_1, 1, ⟨1, 1⟩, ⟨1, 1⟩, []⟩ :
        FourMotorDriveBuilder).buildChassisArgs ∧
      (⟨(1, 2), (3, 4), gearSetting.ratio18_1, 1, ⟨1, 1⟩, ⟨1, 1⟩, []⟩ :
        FourMotorDriveBuilder).buildChassis =
      (⟨(1, 2), (3, 4), gearSetting.ratio18_1, 1, ⟨1, 1⟩, ⟨1, 1⟩, []⟩ :
        FourMotorDriveBuilder).buildChassis) :=
  ⟨buildChassis_readonly_deterministic.1 _,
    buildChassis_readonly_deterministic.2 _ _ rfl⟩

/-- C3: construction with any non-positive dimension or limit is rejected
with a configuration error, and every successfully built FourMotorDrive has
strictly positive track width, wheel radius, maximum velocity and maximum
acceleration. -/
theorem construct_rejects_invalid_config :
    (∀ a : CtorArgs,
      a.dims.trackWidth ≤ 0 ∨ a.dims.wheelRadius ≤ 0 ∨
        a.limits.maxVelocity ≤ 0 ∨ a.limits.maxAcceleration ≤ 0 →
      FourMotorDrive.construct a = Except.error ConfigError.invalidConfiguration) ∧
    (∀ (a : CtorArgs) (c : FourMotorDrive),
      FourMotorDrive.construct a = Except.ok c →
      0 < c.m_chassisDimensions.trackWidth ∧
        0 < c.m_chassisDimensions.wheelRadius ∧
        0 < c.m_chassisLimits.maxVelocity ∧
        0 < c.m_chassisLimits.maxAcceleration) := by
  constructor
  · intro a h
    unfold FourMotorDrive.construct
    rw [if_pos h]
  · intro a c h
    unfold FourMotorDrive.construct at h
    by_cases hbad : a.dims.trackWidth ≤ 0 ∨ a.dims.wheelRadius ≤ 0 ∨
        a.limits.maxVelocity ≤ 0 ∨ a.limits.maxAcceleration ≤ 0
    · rw [if_pos hbad] at h
      cases h
    · rw [if_neg hbad] at h
      push_neg at hbad
      obtain ⟨h1, h2, h3, h4⟩ := hbad
      injection h with h
      subst h
      exact ⟨h1, h2, h3, h4⟩

/-- Witness for C3: a zero track width is rejected. -/
theorem construct_rejects_invalid_config_witness :
    FourMotorDrive.construct
        ⟨(1, 2), (3, 4), gearSetting.ratio18_1, 1, ⟨0, 1⟩, ⟨1, 1⟩, []⟩ =
      Except.error ConfigError.invalidConfiguration :=
  construct_rejects_invalid_config.1 _ (Or.inl (le_refl 0))

/-- C5: with gains kP = 1, kI = 0, kD = 0 and an error of 5 the raw PID
output (before clamping) is 5, for any tick-duration and output bound; and
a reset controller behaves exactly like a freshly constructed controller
with the same gains and bound on every subsequent call — no residual
integral or derivative state. -/
theorem pid_unit_gain_and_reset :
    (∀ (m currentValue targetValue dt : ℚ), targetValue - currentValue = 5 →
      (posPID.make ⟨1, 0, 0⟩ m).rawPower currentValue targetValue dt = 5) ∧
    (∀ (c : posPID) (currentValue targetValue dt : ℚ),
      (c.reset).calculatePower currentValue targetValue dt =
        (posPID.make c.gains c.maxOutput).calculatePower currentValue targetValue dt) := by
  constructor
  · intro m currentValue targetValue dt h
    unfold posPID.rawPower posPID.make
    simp only [h]
    split <;> ring
  · intro c currentValue targetValue dt
    have h : c.reset = posPID.make c.gains c.maxOutput := by
      cases c
      rfl
    rw [h]

/-- Witness for C5 at error 5, tick-duration 1, bound 12. -/
theorem pid_unit_gain_and_reset_witness :
    (posPID.make ⟨1, 0, 0⟩ 12).rawPower 0 5 1 = 5 :=
  pid_unit_gain_and_reset.1 12 0 5 1 (by norm_num)

/-- C6: a zero or negative tick-duration makes the sample a no-op tick —
the controller state is returned unchanged, the output is the clamped
proportional term only, and the raw output is the division-free expression
kP·(target − current), so no division by the tick-duration occurs and no
error is propagated. -/
theorem pid_nonpositive_dt_skips_sample :
    ∀ (c : posPID) (currentValue targetValue dt : ℚ), dt ≤ 0 →
      c.calculatePower currentValue targetValue dt =
        (clamp (c.gains.kP * (targetValue - currentValue)) (-c.maxOutput)
          c.maxOutput, c) ∧
      c.rawPower currentValue targetValue dt =
        c.gains.kP * (targetValue - currentValue) := by
  intro c currentValue targetValue dt h
  constructor
  · unfold posPID.calculatePower posPID.rawPower
    simp [h]
  · unfold posPID.rawPower
    simp [h]

/-- Witness for C6 at tick-duration 0. -/
theorem pid_nonpositive_dt_skips_sample_witness :
    (posPID.make ⟨2, 3, 4⟩ 12).calculatePower 1 4 0 =
      (clamp (2 * (4 - 1)) (-12) 12, posPID.make ⟨2, 3, 4⟩ 12) ∧
    (posPID.make ⟨2, 3, 4⟩ 12).rawPower 1 4 0 = 2 * (4 - 1) :=
  pid_nonpositive_dt_skips_sample _ 1 4 0 (le_refl 0)

/-- The shared primitive loop reports the did-not-converge outcome when the
convergence predicate fails on every state the closed loop reaches. -/
lemma runPrimitive_never_converged {σ : Type} (step : σ → σ) (conv : σ → Bool) :
    ∀ (timeout : Nat) (s : σ),
      (∀ k : Nat, k < timeout → conv (step^[k] s) = false) →
      (runPrimitive step conv timeout s).2 = Outcome.didNotConverge := by
  intro timeout
  induction timeout with
  | zero =>
    intro s _
    rfl
  | succ n ih =>
    intro s h
    have h0 : conv s = false := by simpa using h 0 (Nat.succ_pos n)
    have hs : ∀ k : Nat, k < n → conv (step^[k] (step s)) = false := by
      intro k hk
      have hk2 := h (k + 1) (Nat.succ_lt_succ hk)
      rwa [Function.iterate_succ_apply] at hk2
    simp only [runPrimitive, h0, Bool.false_eq_true, if_false]
    exact ih (step s) hs

/-- C2: each of the four motion primitives runs a loop bounded by its
timeout (a total function of the timeout fuel), and when the convergence
tolerance is not met on any of the ticks before the timeout — whatever
would happen on later ticks — it terminates and reports the non-fatal
did-not-converge outcome value to the caller instead of looping forever. -/
theorem primitives_timeout_and_nonconvergence {σ : Type} (step : σ → σ)
    (conv : σ → Bool) (timeout : Nat) (s : σ)
    (angle distance radius exitAngle x y : ℚ) (backwards : Bool)
    (h : ∀ k : Nat, k < timeout → conv (step^[k] s) = false) :
    (FourMotorDrive.turnToDegreeGyro angle step conv timeout s).2 =
      Outcome.didNotConverge ∧
    (FourMotorDrive.driveStraightFeedforward distance backwards step conv
      timeout s).2 = Outcome.didNotConverge ∧
    (FourMotorDrive.driveArcFeedforward radius exitAngle step conv timeout
      s).2 = Outcome.didNotConverge ∧
    (FourMotorDrive.moveToPoint x y backwards step conv timeout s).2 =
      Outcome.didNotConverge :=
  ⟨runPrimitive_never_converged step conv timeout s h,
    runPrimitive_never_converged step conv timeout s h,
    runPrimitive_never_converged step conv timeout s h,
    runPrimitive_never_converged step conv timeout s h⟩

/-- Witness for C2: a plant whose convergence test fails on the ticks
before the timeout makes every primitive exit with the did-not-converge
outcome at timeout 3. -/
theorem primitives_timeout_and_nonconvergence_witness :
    (FourMotorDrive.turnToDegreeGyro 90 Nat.succ (fun _ => false) 3 0).2 =
      Outcome.didNotConverge ∧
    (FourMotorDrive.driveStraightFeedforward 1 false Nat.succ
      (fun _ => false) 3 0).2 = Outcome.didNotConverge ∧
    (FourMotorDrive.driveArcFeedforward 1 90 Nat.succ (fun _ => false) 3
      0).2 = Outcome.didNotConverge ∧
    (FourMotorDrive.moveToPoint 1 1 false Nat.succ (fun _ => false) 3 0).2 =
      Outcome.didNotConverge :=
  primitives_timeout_and_nonconvergence Nat.succ (fun _ => false) 3 0 90 1 1
    90 1 1 false (fun _ _ => rfl)

/-- Basic sign and shape facts about the profile schedule for a valid
configuration: positive ramp duration, nonnegative cruise duration, the
peak equal to maxAcceleration times the ramp duration, and the total
duration decomposed as ramp plus cruise plus ramp. -/
lemma profile_time_facts (dist vmax amax : ℝ) (hd : 0 < dist) (hv : 0 < vmax)
    (ha : 0 < amax) :
    0 < accelTime dist vmax amax ∧ 0 ≤ cruiseTime dist vmax amax ∧
      peakVelocity dist vmax amax = amax * accelTime dist vmax amax ∧
      totalTime dist vmax amax =
        accelTime dist vmax amax + cruiseTime dist vmax amax +
          accelTime dist vmax amax := by
  have hppos : 0 < peakVelocity dist vmax amax := by
    unfold peakVelocity
    split
    · exact Real.sqrt_pos.2 (mul_pos ha hd)
    · exact hv
  have hta : 0 < accelTime dist vmax amax := div_pos hppos ha
  refine ⟨hta, ?_, ?_, ?_⟩
  · unfold cruiseTime
    split
    · exact le_refl 0
    · next h =>
      push_neg at h
      exact div_nonneg (by linarith) hv.le
  · unfold accelTime
    field_simp
  · unfold totalTime
    ring

/-- A function that agrees on a closed interval with a function continuous
there is interval integrable on that interval. -/
lemma intervalIntegrable_of_eqOn_Icc {f g : ℝ → ℝ} {lo hi : ℝ} (hle : lo ≤ hi)
    (hg : ContinuousOn g (Set.Icc lo hi))
    (heq : Set.EqOn g f (Set.Icc lo hi)) :
    IntervalIntegrable f MeasureTheory.volume lo hi := by
  have hgi : IntervalIntegrable g MeasureTheory.volume lo hi :=
    hg.intervalIntegrable_of_Icc hle
  refine hgi.congr ?_
  have hsub : Set.uIoc lo hi ⊆ Set.Icc lo hi := by
    rw [Set.uIoc_of_le hle]
    exact Set.Ioc_subset_Icc_self
  exact MeasureTheory.ae_restrict_of_forall_mem measurableSet_uIoc
    (fun x hx => heq (hsub hx))

/-- Interval integrals agree for functions that agree on the closed
interval between the endpoints. -/
lemma integral_eq_of_eqOn_Icc {f g : ℝ → ℝ} {lo hi : ℝ} (hle : lo ≤ hi)
    (heq : Set.EqOn f g (Set.Icc lo hi)) :
    ∫ t in lo..hi, f t = ∫ t in lo..hi, g t := by
  apply intervalIntegral.integral_congr
  rwa [Set.uIcc_of_le hle]

/-- Closed form of the integral of a linear ramp. -/
lemma integral_linear_ramp (c lo hi : ℝ) :
    ∫ t in lo..hi, c * t = c * (hi ^ 2 - lo ^ 2) / 2 := by
  rw [intervalIntegral.integral_const_mul, integral_id]
  ring

/-- Closed form of the integral of a constant. -/
lemma integral_constant (c lo hi : ℝ) :
    ∫ _ in lo..hi, c = (hi - lo) * c := by
  rw [intervalIntegral.integral_const, smul_eq_mul]

/-- Closed form of the integral of a downward ramp starting at value p at
the left endpoint. -/
lemma integral_down_ramp (p c lo hi : ℝ) :
    ∫ t in lo..hi, (p - c * (t - lo)) =
      p * (hi - lo) - c * (hi - lo) ^ 2 / 2 := by
  have h1 : Set.EqOn (fun t => p - c * (t - lo))
      (fun t => (p + c * lo) - c * t) (Set.uIcc lo hi) := by
    intro t _
    ring
  rw [intervalIntegral.integral_congr h1]
  rw [intervalIntegral.integral_sub intervalIntegrable_const
    ((continuous_const.mul continuous_id').intervalIntegrable lo hi)]
  rw [intervalIntegral.integral_const, intervalIntegral.integral_const_mul,
    integral_id, smul_eq_mul]
  ring

/-- On the acceleration window the profile velocity is the linear ramp. -/
lemma velocityAt_eqOn_up (dist vmax amax : ℝ) (hd : 0 < dist) (hv : 0 < vmax)
    (ha : 0 < amax) :
    Set.EqOn (velocityAt dist vmax amax) (fun t => amax * t)
      (Set.Icc 0 (accelTime dist vmax amax)) := by
  obtain ⟨hta, htc, hpa, hT⟩ := profile_time_facts dist vmax amax hd hv ha
  intro t ht
  obtain ⟨ht0, ht1⟩ := ht
  have hTle : t ≤ totalTime dist vmax amax := by
    rw [hT]
    linarith
  unfold velocityAt
  rw [if_neg (not_or.2 ⟨not_lt.2 ht0, not_lt.2 hTle⟩), if_pos ht1]

/-- On the cruise window the profile velocity is the peak. -/
lemma velocityAt_eqOn_cruise (dist vmax amax : ℝ) (hd : 0 < dist)
    (hv : 0 < vmax) (ha : 0 < amax) :
    Set.EqOn (velocityAt dist vmax amax)
      (fun _ => peakVelocity dist vmax amax)
      (Set.Icc (accelTime dist vmax amax)
        (accelTime dist vmax amax + cruiseTime dist vmax amax)) := by
  obtain ⟨hta, htc, hpa, hT⟩ := profile_time_facts dist vmax amax hd hv ha
  intro t ht
  obtain ⟨ht0, ht1⟩ := ht
  have h0 : (0 : ℝ) ≤ t := le_trans hta.le ht0
  have hTle : t ≤ totalTime dist vmax amax := by
    rw [hT]
    linarith
  unfold velocityAt
  rw [if_neg (not_or.2 ⟨not_lt.2 h0, not_lt.2 hTle⟩)]
  by_cases h2 : t ≤ accelTime dist vmax amax
  · rw [if_pos h2]
    have hteq : t = accelTime dist vmax amax := le_antisymm h2 ht0
    rw [hteq, ← hpa]
  · rw [if_neg h2, if_pos ht1]

/-- On the deceleration window the profile velocity is the downward
ramp. -/
lemma velocityAt_eqOn_down (dist vmax amax : ℝ) (hd : 0 < dist)
    (hv : 0 < vmax) (ha : 0 < amax) :
    Set.EqOn (velocityAt dist vmax amax)
      (fun t => peakVelocity dist vmax amax -
        amax * (t - (accelTime dist vmax amax + cruiseTime dist vmax amax)))
      (Set.Icc (accelTime dist vmax amax + cruiseTime dist vmax amax)
        (totalTime dist vmax amax)) := by
  obtain ⟨hta, htc, hpa, hT⟩ := profile_time_facts dist vmax amax hd hv ha
  intro t ht
  obtain ⟨ht0, ht1⟩ := ht
  have h0 : (0 : ℝ) ≤ t := by linarith
  unfold velocityAt
  rw [if_neg (not_or.2 ⟨not_lt.2 h0, not_lt.2 ht1⟩)]
  by_cases h2 : t ≤ accelTime dist vmax amax
  · have htc0 : cruiseTime dist vmax amax = 0 := le_antisymm (by linarith) htc
    have hteq : t = accelTime dist vmax amax := le_antisymm h2 (by linarith)
    rw [if_pos h2, hteq, htc0, hpa]
    ring
  · rw [if_neg h2]
    by_cases h3 : t ≤ accelTime dist vmax amax + cruiseTime dist vmax amax
    · have hteq : t = accelTime dist vmax amax + cruiseTime dist vmax amax :=
        le_antisymm h3 ht0
      rw [if_pos h3, hteq]
      ring
    · rw [if_neg h3]

/-- The area identity behind the profile: maxAcceleration times the square
of the ramp duration plus the cruise area equals the commanded distance. -/
lemma profile_area_key (dist vmax amax : ℝ) (hd : 0 < dist) (hv : 0 < vmax)
    (ha : 0 < amax) :
    amax * accelTime dist vmax amax ^ 2 +
      peakVelocity dist vmax amax * cruiseTime dist vmax amax = dist := by
  have ha' : amax ≠ 0 := ha.ne'
  have hv' : vmax ≠ 0 := hv.ne'
  by_cases htri : 2 * accelDist0 vmax amax ≥ dist
  · have htc_eq : cruiseTime dist vmax amax = 0 := by
      unfold cruiseTime
      rw [if_pos htri]
    have hsq : peakVelocity dist vmax amax ^ 2 = amax * dist := by
      unfold peakVelocity
      rw [if_pos htri]
      exact Real.sq_sqrt (mul_pos ha hd).le
    rw [htc_eq, mul_zero, add_zero,
      show accelTime dist vmax amax =
        peakVelocity dist vmax amax / amax from rfl]
    field_simp
    linear_combination amax * hsq
  · have htc_eq : cruiseTime dist vmax amax =
        (dist - 2 * accelDist0 vmax amax) / vmax := by
      unfold cruiseTime
      rw [if_neg htri]
    have hp_eq : peakVelocity dist vmax amax = vmax := by
      unfold peakVelocity
      rw [if_neg htri]
    rw [htc_eq,
      show accelTime dist vmax amax =
        peakVelocity dist vmax amax / amax from rfl,
      hp_eq]
    unfold accelDist0 accelTime0
    field_simp
    ring

/-- C1: for every valid motion-profile configuration the integral of
velocityAt over the full profile duration equals the commanded total
distance — exactly in the real-number model, covering both the trapezoidal
and the triangle-shaped profile. -/
theorem mp_velocity_integral_eq_distance (dist vmax amax : ℝ) (hd : 0 < dist)
    (hv : 0 < vmax) (ha : 0 < amax) :
    ∫ t in (0 : ℝ)..(totalTime dist vmax amax),
      velocityAt dist vmax amax t = dist := by
  obtain ⟨hta, htc, hpa, hT⟩ := profile_time_facts dist vmax amax hd hv ha
  have hle1 : (0 : ℝ) ≤ accelTime dist vmax amax := hta.le
  have hle2 : accelTime dist vmax amax ≤
      accelTime dist vmax amax + cruiseTime dist vmax amax := by linarith
  have hle3 : accelTime dist vmax amax + cruiseTime dist vmax amax ≤
      totalTime dist vmax amax := by
    rw [hT]
    linarith
  have hi1 : IntervalIntegrable (velocityAt dist vmax amax)
      MeasureTheory.volume 0 (accelTime dist vmax amax) :=
    intervalIntegrable_of_eqOn_Icc hle1
      (continuous_const.mul continuous_id').continuousOn
      (velocityAt_eqOn_up dist vmax amax hd hv ha).symm
  have hi2 : IntervalIntegrable (velocityAt dist vmax amax)
      MeasureTheory.volume (accelTime dist vmax amax)
      (accelTime dist vmax amax + cruiseTime dist vmax amax) :=
    intervalIntegrable_of_eqOn_Icc hle2 continuousOn_const
      (velocityAt_eqOn_cruise dist vmax amax hd hv ha).symm
  have hi3 : IntervalIntegrable (velocityAt dist vmax amax)
      MeasureTheory.volume
      (accelTime dist vmax amax + cruiseTime dist vmax amax)
      (totalTime dist vmax amax) :=
    intervalIntegrable_of_eqOn_Icc hle3
      (continuous_const.sub
        (continuous_const.mul (continuous_id'.sub continuous_const))).continuousOn
      (velocityAt_eqOn_down dist vmax amax hd hv ha).symm
  rw [← intervalIntegral.integral_add_adjacent_intervals (hi1.trans hi2) hi3,
    ← intervalIntegral.integral_add_adjacent_intervals hi1 hi2]
  rw [integral_eq_of_eqOn_Icc hle1 (velocityAt_eqOn_up dist vmax amax hd hv ha),
    integral_eq_of_eqOn_Icc hle2 (velocityAt_eqOn_cruise dist vmax amax hd hv ha),
    integral_eq_of_eqOn_Icc hle3 (velocityAt_eqOn_down dist vmax amax hd hv ha)]
  rw [integral_linear_ramp, integral_constant, integral_down_ramp, hT]
  linear_combination profile_area_key dist vmax amax hd hv ha +
    accelTime dist vmax amax * hpa

/-- Witness for C1 at distance 1, maxVelocity 1, maxAcceleration 1. -/
theorem mp_velocity_integral_eq_distance_witness :
    ∫ t in (0 : ℝ)..(totalTime 1 1 1), velocityAt 1 1 1 t = 1 :=
  mp_velocity_integral_eq_distance 1 1 1 one_pos one_pos one_pos

/-- The profile velocity never exceeds the peak velocity, for any time. -/
lemma velocityAt_le_peak (dist vmax amax : ℝ) (hd : 0 < dist) (hv : 0 < vmax)
    (ha : 0 < amax) :
    ∀ t : ℝ, velocityAt dist vmax amax t ≤ peakVelocity dist vmax amax := by
  obtain ⟨hta, htc, hpa, hT⟩ := profile_time_facts dist vmax amax hd hv ha
  have hppos : 0 < peakVelocity dist vmax amax := by
    rw [hpa]
    exact mul_pos ha hta
  intro t
  unfold velocityAt
  split_ifs with h1 h2 h3
  · exact hppos.le
  · rw [hpa]
    exact mul_le_mul_of_nonneg_left h2 ha.le
  · exact le_refl _
  · have h4 : accelTime dist vmax amax + cruiseTime dist vmax amax < t :=
      not_le.1 h3
    nlinarith [mul_nonneg ha.le (sub_nonneg.2 h4.le)]

/-- Counterexample to C4 as stated: at totalDistance 2, maxVelocity 2 and
maxAcceleration 2 the triangle condition 2·d_accel ≥ totalDistance holds
(with equality), yet the profile velocity at the end of the ramp equals the
configured maxVelocity of 2 — the profile does reach maxVelocity. -/
theorem triangle_profile_reaches_vmax_at_boundary :
    2 * accelDist0 2 2 ≥ (2 : ℝ) ∧ velocityAt 2 2 2 1 = 2 := by
  have haD : accelDist0 2 2 = 1 := by
    unfold accelDist0 accelTime0
    norm_num
  have hsqrt : Real.sqrt (2 * 2) = 2 := by
    rw [show (2 : ℝ) * 2 = 2 ^ 2 by norm_num, Real.sqrt_sq (by norm_num)]
  have hp : peakVelocity 2 2 2 = 2 := by
    unfold peakVelocity
    rw [if_pos (by rw [haD]; norm_num : 2 * accelDist0 2 2 ≥ (2 : ℝ))]
    exact hsqrt
  have hta : accelTime 2 2 2 = 1 := by
    unfold accelTime
    rw [hp]
    norm_num
  have htc : cruiseTime 2 2 2 = 0 := by
    unfold cruiseTime
    rw [if_pos (by rw [haD]; norm_num : 2 * accelDist0 2 2 ≥ (2 : ℝ))]
  have hT : totalTime 2 2 2 = 2 := by
    unfold totalTime
    rw [hta, htc]
    norm_num
  constructor
  · rw [haD]
    norm_num
  · have h1 : ¬((1 : ℝ) < 0 ∨ (1 : ℝ) > totalTime 2 2 2) := by
      rw [hT]
      norm_num
    have h2 : (1 : ℝ) ≤ accelTime 2 2 2 := by
      rw [hta]
    unfold velocityAt
    rw [if_neg h1, if_pos h2]
    norm_num

/-- C4 (amended): for every valid profile input with 2·d_accel ≥
totalDistance the profile is a triangle — the peak velocity equals the
square root of maxAcceleration·totalDistance, the ramp duration equals the
peak divided by maxAcceleration, the cruise duration is zero, and the
profile velocity never exceeds the configured maxVelocity; when the
inequality is strict the velocity stays strictly below maxVelocity.  (As
originally stated — never reaches maxVelocity — the claim fails exactly at
the boundary 2·d_accel = totalDistance.) -/
theorem triangle_profile_shape (dist vmax amax : ℝ) (hd : 0 < dist)
    (hv : 0 < vmax) (ha : 0 < amax)
    (htri : 2 * accelDist0 vmax amax ≥ dist) :
    peakVelocity dist vmax amax = Real.sqrt (amax * dist) ∧
    accelTime dist vmax amax = peakVelocity dist vmax amax / amax ∧
    cruiseTime dist vmax amax = 0 ∧
    (∀ t : ℝ, velocityAt dist vmax amax t ≤ vmax) ∧
    (2 * accelDist0 vmax amax > dist →
      ∀ t : ℝ, velocityAt dist vmax amax t < vmax) := by
  have ha' : amax ≠ 0 := ha.ne'
  have h2aD0 : 2 * accelDist0 vmax amax = vmax ^ 2 / amax := by
    unfold accelDist0 accelTime0
    field_simp
    ring
  have hp_eq : peakVelocity dist vmax amax = Real.sqrt (amax * dist) := by
    unfold peakVelocity
    rw [if_pos htri]
  have htc_eq : cruiseTime dist vmax amax = 0 := by
    unfold cruiseTime
    rw [if_pos htri]
  have hle : amax * dist ≤ vmax ^ 2 := by
    rw [h2aD0] at htri
    have h := (le_div_iff₀ ha).1 htri
    linarith
  have hpeak_le : peakVelocity dist vmax amax ≤ vmax := by
    rw [hp_eq]
    calc Real.sqrt (amax * dist) ≤ Real.sqrt (vmax ^ 2) :=
          Real.sqrt_le_sqrt hle
      _ = vmax := Real.sqrt_sq hv.le
  refine ⟨hp_eq, rfl, htc_eq, ?_, ?_⟩
  · intro t
    exact le_trans (velocityAt_le_peak dist vmax amax hd hv ha t) hpeak_le
  · intro hstrict t
    have hlt : amax * dist < vmax ^ 2 := by
      rw [h2aD0] at hstrict
      have h := (lt_div_iff₀ ha).1 hstrict
      linarith
    have hpeak_lt : peakVelocity dist vmax amax < vmax := by
      rw [hp_eq]
      have h := Real.sqrt_lt_sqrt (mul_pos ha hd).le hlt
      rwa [Real.sqrt_sq hv.le] at h
    exact lt_of_le_of_lt (velocityAt_le_peak dist vmax amax hd hv ha t)
      hpeak_lt

/-- Witness for the amended C4 at distance 1, maxVelocity 2,
maxAcceleration 2, a strict triangle case. -/
theorem triangle_profile_shape_witness :
    peakVelocity 1 2 2 = Real.sqrt (2 * 1) ∧
    accelTime 1 2 2 = peakVelocity 1 2 2 / 2 ∧
    cruiseTime 1 2 2 = 0 ∧
    (∀ t : ℝ, velocityAt 1 2 2 t ≤ 2) ∧
    (2 * accelDist0 2 2 > 1 → ∀ t : ℝ, velocityAt 1 2 2 t < 2) :=
  triangle_profile_shape 1 2 2 one_pos two_pos two_pos
    (by unfold accelDist0 accelTime0; norm_num)
